import Mathlib

/-!
  # Verification of the order-execution and risk-controlled position
  lifecycle of the polymarket trading bot

  Shallow embedding of the core state-bearing components of the repository:

  * `PositionLimits` (`src/risk/position_limits.py`) — per-market exposure
    map, aggregate exposure, daily trade counter, and the `can_trade` guard.
  * `PositionMonitor` / `TradeMetrics` (`src/monitoring.py`) — open-position
    ledger with realized/unrealized P&L, and the trade metrics counters.
  * `execute_market_buy` (`src/execution.py`) with the paper portfolio
    (`src/portfolio.py`) — the dry-run and live order paths, with the
    live path's retry loop and partial-fill detection.

  Python dicts are embedded as association lists over `String` keys with
  dict-faithful operations (assignment replaces in place, new keys append,
  `pop` removes the tracked entry); currency and prices are embedded as `ℚ`;
  the observable effects of a call (return value plus the facts it logs)
  are returned as explicit data.
-/

namespace PolymarketBot

/-! ## Association-list model of Python dicts -/

/-- Lookup of a key in a `dict` embedded as an association list
(first match, which is the only match when keys are distinct). -/
def assocLookup {α : Type} : List (String × α) → String → Option α
  | [], _ => none
  | (k, v) :: rest, m => if k = m then some v else assocLookup rest m

/-- Python `d[m] = v`: replace the value at an existing key in place,
append a fresh key at the end. -/
def assocSet {α : Type} : List (String × α) → String → α → List (String × α)
  | [], m, v => [(m, v)]
  | (k, w) :: rest, m, v =>
    if k = m then (k, v) :: rest else (k, w) :: assocSet rest m v

/-- Python `d.pop(m)` on the keys side: drop the first entry with key `m`. -/
def assocErase {α : Type} : List (String × α) → String → List (String × α)
  | [], _ => []
  | (k, w) :: rest, m =>
    if k = m then rest else (k, w) :: assocErase rest m

/-- Keys of the embedded dict, in insertion order. -/
def assocKeys {α : Type} (ps : List (String × α)) : List String :=
  ps.map Prod.fst

/-! ## Configuration constants (`src/config.py`, dev defaults) -/

def MAX_DAILY_TRADES : ℕ := 100

def MAX_POSITION_USD : ℚ := 25

def MAX_CONCURRENT_POSITIONS : ℕ := 20

def WALLET_MIN_BALANCE_USD : ℚ := 1

/-! ## `PositionLimits` (`src/risk/position_limits.py`) -/

/-- State of `PositionLimits`: `active_positions` maps market id to open
USD notional; `total_exposure_usd` is the aggregate counter the class
maintains alongside the map. -/
structure PositionLimits where
  active_positions : List (String × ℚ)
  daily_trade_count : ℕ
  total_exposure_usd : ℚ
deriving DecidableEq, Repr

/-- `PositionLimits.__init__`: empty map, zero counters. -/
def PositionLimits.init : PositionLimits :=
  { active_positions := [], daily_trade_count := 0, total_exposure_usd := 0 }

/-- The four rejection branches of `can_trade`, in source order. -/
inductive RejectReason where
  | dailyLimit
  | positionSize
  | concurrent
  | exposure
deriving DecidableEq, Repr

/-- `PositionLimits.can_trade`, kept as the first failing check (the source
logs exactly one rejection and returns `False`); `none` means the trade is
allowed. -/
def PositionLimits.can_trade_reason (s : PositionLimits) (market_id : String)
    (amount_usd : ℚ) : Option RejectReason :=
  if s.daily_trade_count ≥ MAX_DAILY_TRADES then some .dailyLimit
  else if amount_usd > MAX_POSITION_USD then some .positionSize
  else if s.active_positions.length ≥ MAX_CONCURRENT_POSITIONS ∧
      assocLookup s.active_positions market_id = none then some .concurrent
  else if s.total_exposure_usd + amount_usd >
      (MAX_CONCURRENT_POSITIONS : ℚ) * MAX_POSITION_USD * (8 / 10) then some .exposure
  else none

/-- The boolean `can_trade` returns. -/
def PositionLimits.can_trade (s : PositionLimits) (market_id : String)
    (amount_usd : ℚ) : Bool :=
  (s.can_trade_reason market_id amount_usd).isNone

/-- `PositionLimits.add_position`: create the key at `0.0` when absent, add
the amount to the per-market entry, the aggregate and the daily counter. -/
def PositionLimits.add_position (s : PositionLimits) (market_id : String)
    (amount_usd : ℚ) : PositionLimits :=
  { active_positions :=
      match assocLookup s.active_positions market_id with
      | some v => assocSet s.active_positions market_id (v + amount_usd)
      | none => assocSet s.active_positions market_id (0 + amount_usd)
    daily_trade_count := s.daily_trade_count + 1
    total_exposure_usd := s.total_exposure_usd + amount_usd }

/-- `PositionLimits.close_position`: when the market is tracked, pop its
entry and subtract the popped amount from the aggregate; otherwise do
nothing.  The `pnl_usd` argument is only logged, so it is dropped here. -/
def PositionLimits.close_position (s : PositionLimits) (market_id : String) :
    PositionLimits :=
  match assocLookup s.active_positions market_id with
  | some amount =>
      { active_positions := assocErase s.active_positions market_id
        daily_trade_count := s.daily_trade_count
        total_exposure_usd := s.total_exposure_usd - amount }
  | none => s

/-- One recorded call against a `PositionLimits` object. -/
inductive LimitsOp where
  | add (market_id : String) (amount_usd : ℚ)
  | close (market_id : String)
deriving DecidableEq, Repr

/-- Apply one call. -/
def limitsStep (s : PositionLimits) : LimitsOp → PositionLimits
  | .add m a => s.add_position m a
  | .close m => s.close_position m

/-- Run a call sequence from the initial empty state. -/
def limitsRun (ops : List LimitsOp) : PositionLimits :=
  ops.foldl limitsStep PositionLimits.init

/-- Sum of the per-market amounts currently stored in the map. -/
def sumAmounts (ps : List (String × ℚ)) : ℚ :=
  (ps.map Prod.snd).sum

/-! ### Association-list lemmas -/

theorem sumAmounts_assocSet_add (ps : List (String × ℚ)) (m : String) (a : ℚ) :
    (∀ v, assocLookup ps m = some v →
      sumAmounts (assocSet ps m (v + a)) = sumAmounts ps + a) ∧
    (assocLookup ps m = none →
      sumAmounts (assocSet ps m (0 + a)) = sumAmounts ps + a) := by
  induction ps with
  | nil => simp [assocLookup, assocSet, sumAmounts]
  | cons p rest ih =>
    obtain ⟨k, w⟩ := p
    by_cases hk : k = m
    · subst hk
      constructor
      · intro v hv
        simp [assocLookup] at hv
        subst hv
        simp [assocSet, sumAmounts]
        ring
      · intro hv
        simp [assocLookup] at hv
    · constructor
      · intro v hv
        simp [assocLookup, hk] at hv
        simp [assocSet, hk, sumAmounts]
        have := ih.1 v hv
        simp [sumAmounts] at this
        linarith
      · intro hv
        simp [assocLookup, hk] at hv
        simp [assocSet, hk, sumAmounts]
        have := ih.2 hv
        simp [sumAmounts] at this
        linarith

theorem sumAmounts_assocErase (ps : List (String × ℚ)) (m : String) (v : ℚ)
    (hv : assocLookup ps m = some v) :
    sumAmounts (assocErase ps m) = sumAmounts ps - v := by
  induction ps with
  | nil => simp [assocLookup] at hv
  | cons p rest ih =>
    obtain ⟨k, w⟩ := p
    by_cases hk : k = m
    · subst hk
      simp [assocLookup] at hv
      subst hv
      simp [assocErase, sumAmounts]
    · simp [assocLookup, hk] at hv
      simp [assocErase, hk, sumAmounts]
      have := ih hv
      simp [sumAmounts] at this
      linarith

/-- The exposure invariant is preserved by every single call. -/
theorem limitsStep_invariant (s : PositionLimits)
    (h : s.total_exposure_usd = sumAmounts s.active_positions) (op : LimitsOp) :
    (limitsStep s op).total_exposure_usd =
      sumAmounts (limitsStep s op).active_positions := by
  cases op with
  | add m a =>
    simp only [limitsStep, PositionLimits.add_position]
    cases hv : assocLookup s.active_positions m with
    | none =>
      simp only [hv]
      rw [(sumAmounts_assocSet_add s.active_positions m a).2 hv, h]
    | some v =>
      simp only [hv]
      rw [(sumAmounts_assocSet_add s.active_positions m a).1 v hv, h]
  | close m =>
    simp only [limitsStep, PositionLimits.close_position]
    cases hv : assocLookup s.active_positions m with
    | none => simpa using h
    | some v =>
      simp only [hv]
      rw [sumAmounts_assocErase s.active_positions m v hv, h]

/-- The exposure invariant holds at every reachable state. -/
theorem limitsRun_invariant (ops : List LimitsOp) :
    (limitsRun ops).total_exposure_usd =
      sumAmounts (limitsRun ops).active_positions := by
  suffices h : ∀ s : PositionLimits,
      s.total_exposure_usd = sumAmounts s.active_positions →
      (ops.foldl limitsStep s).total_exposure_usd =
        sumAmounts (ops.foldl limitsStep s).active_positions by
    exact h PositionLimits.init (by simp [PositionLimits.init, sumAmounts])
  induction ops with
  | nil => intro s hs; simpa using hs
  | cons op rest ih =>
    intro s hs
    exact ih (limitsStep s op) (limitsStep_invariant s hs op)

/-- C1: for every sequence of `add_position`/`close_position` calls from the
initial state, `total_exposure_usd` equals the sum of the per-market amounts
in `active_positions`; and `close_position` on an untracked market leaves the
whole state unchanged. -/
theorem C1_exposure_invariant (ops : List LimitsOp) :
    ((limitsRun ops).total_exposure_usd =
      sumAmounts (limitsRun ops).active_positions) ∧
    ∀ m : String, assocLookup (limitsRun ops).active_positions m = none →
      (limitsRun ops).close_position m = limitsRun ops := by
  refine ⟨limitsRun_invariant ops, ?_⟩
  intro m hm
  simp [PositionLimits.close_position, hm]

/-- Witness for C1 at a concrete call sequence. -/
theorem C1_exposure_invariant_witness :
    ((limitsRun [.add "a" 5, .add "b" 3, .close "a"]).total_exposure_usd =
      sumAmounts (limitsRun [.add "a" 5, .add "b" 3, .close "a"]).active_positions) ∧
    (limitsRun [.add "a" 5, .add "b" 3, .close "a"]).close_position "zzz" =
      limitsRun [.add "a" 5, .add "b" 3, .close "a"] :=
  ⟨(C1_exposure_invariant [.add "a" 5, .add "b" 3, .close "a"]).1,
   (C1_exposure_invariant [.add "a" 5, .add "b" 3, .close "a"]).2 "zzz" (by decide)⟩

/-- C6: `can_trade` rejects whenever the requested amount strictly exceeds
`MAX_POSITION_USD`, whatever the current state; and at exactly the ceiling
the size check never fires (the request can only be rejected by one of the
other three checks). -/
theorem C6_position_ceiling (s : PositionLimits) (m : String) (a : ℚ) :
    (a > MAX_POSITION_USD → s.can_trade m a = false) ∧
    (a = MAX_POSITION_USD →
      s.can_trade_reason m a ≠ some RejectReason.positionSize) := by
  constructor
  · intro ha
    simp only [PositionLimits.can_trade, PositionLimits.can_trade_reason]
    by_cases hd : s.daily_trade_count ≥ MAX_DAILY_TRADES
    · simp [hd]
    · simp [hd, ha]
  · intro ha
    subst ha
    simp only [PositionLimits.can_trade_reason]
    by_cases hd : s.daily_trade_count ≥ MAX_DAILY_TRADES
    · simp [hd]
    · have hsz : ¬ MAX_POSITION_USD > MAX_POSITION_USD := lt_irrefl _
      simp only [hd, if_false, hsz]
      by_cases hc : s.active_positions.length ≥ MAX_CONCURRENT_POSITIONS ∧
          assocLookup s.active_positions m = none
      · simp [hc]
      · by_cases he : s.total_exposure_usd + MAX_POSITION_USD >
            (MAX_CONCURRENT_POSITIONS : ℚ) * MAX_POSITION_USD * (8 / 10)
        · simp [hc, he]
        · simp [hc, he]

/-- Witness for C6 at a concrete state and amounts. -/
theorem C6_position_ceiling_witness :
    PositionLimits.init.can_trade "m" 26 = false ∧
    PositionLimits.init.can_trade_reason "m" 25 ≠
      some RejectReason.positionSize :=
  ⟨(C6_position_ceiling PositionLimits.init "m" 26).1 (by norm_num [MAX_POSITION_USD]),
   (C6_position_ceiling PositionLimits.init "m" 25).2 (by norm_num [MAX_POSITION_USD])⟩

/-- C7: with exactly `MAX_CONCURRENT_POSITIONS` markets open and no other
limit binding, `can_trade` rejects a market that is not among them and
allows a market that is already open. -/
theorem C7_concurrent_check (s : PositionLimits) (mNew mOpen : String) (a : ℚ)
    (hlen : s.active_positions.length = MAX_CONCURRENT_POSITIONS)
    (hdaily : s.daily_trade_count < MAX_DAILY_TRADES)
    (hamt : a ≤ MAX_POSITION_USD)
    (hexp : s.total_exposure_usd + a ≤
      (MAX_CONCURRENT_POSITIONS : ℚ) * MAX_POSITION_USD * (8 / 10))
    (hnew : assocLookup s.active_positions mNew = none)
    (hopen : assocLookup s.active_positions mOpen ≠ none) :
    s.can_trade mNew a = false ∧ s.can_trade mOpen a = true := by
  have hd : ¬ s.daily_trade_count ≥ MAX_DAILY_TRADES := not_le.mpr hdaily
  have hsz : ¬ a > MAX_POSITION_USD := not_lt.mpr hamt
  have he : ¬ s.total_exposure_usd + a >
      (MAX_CONCURRENT_POSITIONS : ℚ) * MAX_POSITION_USD * (8 / 10) :=
    not_lt.mpr hexp
  constructor
  · simp [PositionLimits.can_trade, PositionLimits.can_trade_reason,
      hd, hsz, hlen, hnew]
  · simp [PositionLimits.can_trade, PositionLimits.can_trade_reason,
      hd, hsz, hopen, he]

/-- A concrete state with twenty open markets of one dollar each. -/
def twentyMarkets : PositionLimits :=
  { active_positions := (List.range 20).map fun i => (toString i, (1 : ℚ))
    daily_trade_count := 0
    total_exposure_usd := 20 }

/-- Witness for C7 at the twenty-market state. -/
theorem C7_concurrent_check_witness :
    twentyMarkets.can_trade "fresh" 1 = false ∧
    twentyMarkets.can_trade "7" 1 = true :=
  C7_concurrent_check twentyMarkets "fresh" "7" 1
    (by decide) (by decide) (by norm_num [MAX_POSITION_USD])
    (by norm_num [twentyMarkets, MAX_CONCURRENT_POSITIONS, MAX_POSITION_USD])
    (by decide) (by decide)

/-! ## `PositionMonitor` (`src/monitoring.py`) -/

/-- The per-market position record `open_position` stores.  The wall-clock
entry time is embedded as an abstract tick supplied by the caller. -/
structure MPosition where
  side : String
  shares : ℚ
  entry_price : ℚ
  current_price : ℚ
  entry_time : ℕ
deriving DecidableEq, Repr

/-- The immutable record appended to `closed_positions`. -/
structure MClosed where
  market_id : String
  side : String
  shares : ℚ
  entry_price : ℚ
  exit_price : ℚ
  entry_time : ℕ
  exit_time : ℕ
  realized_pnl : ℚ
  realized_pct : ℚ
  reason : String
deriving DecidableEq, Repr

/-- State of `PositionMonitor`: open positions keyed by market id and the
append-only closed-position history. -/
structure PositionMonitor where
  positions : List (String × MPosition)
  closed_positions : List MClosed
deriving DecidableEq, Repr

/-- `PositionMonitor.__init__`. -/
def PositionMonitor.init : PositionMonitor :=
  { positions := [], closed_positions := [] }

/-- `PositionMonitor.open_position`: dict assignment at the market key, with
`current_price` initially equal to the entry price. -/
def PositionMonitor.open_position (mon : PositionMonitor) (market_id side : String)
    (shares entry_price : ℚ) (now : ℕ) : PositionMonitor :=
  let pos : MPosition :=
    { side := side, shares := shares, entry_price := entry_price,
      current_price := entry_price, entry_time := now }
  { mon with positions := assocSet mon.positions market_id pos }

/-- The dict `update_position_price` returns for a tracked market. -/
structure PriceView where
  market_id : String
  side : String
  shares : ℚ
  entry_price : ℚ
  current_price : ℚ
  unrealized_pnl : ℚ
  unrealized_pct : ℚ
deriving DecidableEq, Repr

/-- `PositionMonitor.update_position_price`: empty result and no state change
for an untracked market; otherwise the new mark price is stored first, then
the signed unrealized P&L is computed (`yes` gains when the price rises,
`no` when it falls).  The percentage line divides by
`entry_price * shares` when `entry_price > 0`, so a zero denominator there
raises `ZeroDivisionError` after the price mutation and before any return:
the pair holds the state the call leaves behind and either the returned
dict or the exception. -/
def PositionMonitor.update_position_price (mon : PositionMonitor)
    (market_id : String) (current_price : ℚ) :
    PositionMonitor × Except String (Option PriceView) :=
  match assocLookup mon.positions market_id with
  | none => (mon, .ok none)
  | some pos =>
    let pos2 : MPosition := { pos with current_price := current_price }
    let mon2 : PositionMonitor :=
      { mon with positions := assocSet mon.positions market_id pos2 }
    let unrealized_pnl :=
      if pos.side = "yes" then (current_price - pos.entry_price) * pos.shares
      else (pos.entry_price - current_price) * pos.shares
    if pos.entry_price > 0 ∧ pos.entry_price * pos.shares = 0 then
      (mon2, .error "ZeroDivisionError: float division by zero")
    else
      let unrealized_pct :=
        if pos.entry_price > 0 then
          unrealized_pnl / (pos.entry_price * pos.shares) * 100
        else 0
      let view : PriceView :=
        { market_id := market_id, side := pos.side, shares := pos.shares,
          entry_price := pos.entry_price, current_price := current_price,
          unrealized_pnl := unrealized_pnl, unrealized_pct := unrealized_pct }
      (mon2, .ok (some view))

/-- `PositionMonitor.close_position`: `None` for an untracked market;
otherwise the position is popped first, then the signed P&L is realized at
the exit price and the closed record appended to the history.  The
percentage line divides by `entry_price * shares` when `entry_price > 0`,
so a zero denominator raises `ZeroDivisionError` after the pop and before
the append: the pair holds the state the call leaves behind and either the
returned record or the exception. -/
def PositionMonitor.close_position (mon : PositionMonitor) (market_id : String)
    (exit_price : ℚ) (reason : String) (now : ℕ) :
    PositionMonitor × Except String (Option MClosed) :=
  match assocLookup mon.positions market_id with
  | none => (mon, .ok none)
  | some pos =>
    let realized_pnl :=
      if pos.side = "yes" then (exit_price - pos.entry_price) * pos.shares
      else (pos.entry_price - exit_price) * pos.shares
    if pos.entry_price > 0 ∧ pos.entry_price * pos.shares = 0 then
      ({ mon with positions := assocErase mon.positions market_id },
       .error "ZeroDivisionError: float division by zero")
    else
      let realized_pct :=
        if pos.entry_price > 0 then
          realized_pnl / (pos.entry_price * pos.shares) * 100
        else 0
      let closed : MClosed :=
        { market_id := market_id, side := pos.side, shares := pos.shares,
          entry_price := pos.entry_price, exit_price := exit_price,
          entry_time := pos.entry_time, exit_time := now,
          realized_pnl := realized_pnl, realized_pct := realized_pct,
          reason := reason }
      ({ positions := assocErase mon.positions market_id,
         closed_positions := mon.closed_positions ++ [closed] },
       .ok (some closed))

/-- One recorded call against a `PositionMonitor` object. -/
inductive MonitorOp where
  | openPos (market_id side : String) (shares entry_price : ℚ) (now : ℕ)
  | updatePrice (market_id : String) (current_price : ℚ)
  | closePos (market_id : String) (exit_price : ℚ) (reason : String) (now : ℕ)
deriving DecidableEq, Repr

/-- Apply one call (the returned dict is discarded for reachability). -/
def monitorStep (mon : PositionMonitor) : MonitorOp → PositionMonitor
  | .openPos m side sh e t => mon.open_position m side sh e t
  | .updatePrice m p => (mon.update_position_price m p).1
  | .closePos m p r t => (mon.close_position m p r t).1

/-- Run a call sequence from the initial empty monitor. -/
def monitorRun (ops : List MonitorOp) : PositionMonitor :=
  ops.foldl monitorStep PositionMonitor.init

/-! ### Dict-key lemmas -/

theorem assocKeys_nil {α : Type} : assocKeys ([] : List (String × α)) = [] :=
  rfl

theorem assocKeys_cons {α : Type} (k : String) (v : α) (rest : List (String × α)) :
    assocKeys ((k, v) :: rest) = k :: assocKeys rest :=
  rfl

theorem assocLookup_eq_none {α : Type} (ps : List (String × α)) (m : String) :
    assocLookup ps m = none ↔ m ∉ assocKeys ps := by
  induction ps with
  | nil => simp [assocLookup, assocKeys_nil]
  | cons p rest ih =>
    obtain ⟨k, v⟩ := p
    rw [assocKeys_cons]
    by_cases hk : k = m
    · subst hk
      simp [assocLookup]
    · rw [List.mem_cons]
      simp only [assocLookup, if_neg hk, ih]
      constructor
      · intro h hmem
        cases hmem with
        | inl h1 => exact hk h1.symm
        | inr h2 => exact h h2
      · intro h h2
        exact h (Or.inr h2)

theorem assocLookup_assocSet_self {α : Type} (ps : List (String × α))
    (m : String) (v : α) : assocLookup (assocSet ps m v) m = some v := by
  induction ps with
  | nil => simp [assocSet, assocLookup]
  | cons p rest ih =>
    obtain ⟨k, w⟩ := p
    by_cases hk : k = m
    · subst hk
      simp [assocSet, assocLookup]
    · simp only [assocSet, if_neg hk, assocLookup, ih]

theorem assocKeys_assocSet_of_some {α : Type} (ps : List (String × α))
    (m : String) (v w : α) (h : assocLookup ps m = some v) :
    assocKeys (assocSet ps m w) = assocKeys ps := by
  induction ps with
  | nil => simp [assocLookup] at h
  | cons p rest ih =>
    obtain ⟨k, u⟩ := p
    by_cases hk : k = m
    · subst hk
      simp [assocSet, assocKeys_cons]
    · simp only [assocLookup, if_neg hk] at h
      simp only [assocSet, if_neg hk, assocKeys_cons, ih h]

theorem assocKeys_assocSet_of_none {α : Type} (ps : List (String × α))
    (m : String) (w : α) (h : assocLookup ps m = none) :
    assocKeys (assocSet ps m w) = assocKeys ps ++ [m] := by
  induction ps with
  | nil => simp [assocSet, assocKeys_nil, assocKeys_cons]
  | cons p rest ih =>
    obtain ⟨k, u⟩ := p
    by_cases hk : k = m
    · subst hk
      simp [assocLookup] at h
    · simp only [assocLookup, if_neg hk] at h
      simp only [assocSet, if_neg hk, assocKeys_cons, ih h, List.cons_append]

theorem assocKeys_assocErase_sublist {α : Type} (ps : List (String × α))
    (m : String) : (assocKeys (assocErase ps m)).Sublist (assocKeys ps) := by
  induction ps with
  | nil => simp [assocErase, assocKeys_nil]
  | cons p rest ih =>
    obtain ⟨k, u⟩ := p
    by_cases hk : k = m
    · subst hk
      simp only [assocErase, if_pos rfl, assocKeys_cons]
      exact List.sublist_cons_self _ _
    · simp only [assocErase, if_neg hk, assocKeys_cons]
      exact List.Sublist.cons₂ _ ih

theorem length_assocSet_of_some {α : Type} (ps : List (String × α))
    (m : String) (v w : α) (h : assocLookup ps m = some v) :
    (assocSet ps m w).length = ps.length := by
  induction ps with
  | nil => simp [assocLookup] at h
  | cons p rest ih =>
    obtain ⟨k, u⟩ := p
    by_cases hk : k = m
    · subst hk
      simp [assocSet]
    · simp only [assocLookup, if_neg hk] at h
      simp only [assocSet, if_neg hk, List.length_cons, ih h]

theorem nodup_assocSet {α : Type} (ps : List (String × α)) (m : String) (v : α)
    (h : (assocKeys ps).Nodup) : (assocKeys (assocSet ps m v)).Nodup := by
  cases hl : assocLookup ps m with
  | some w => rw [assocKeys_assocSet_of_some ps m w v hl]; exact h
  | none =>
    rw [assocKeys_assocSet_of_none ps m v hl]
    have hm : m ∉ assocKeys ps := (assocLookup_eq_none ps m).mp hl
    simp [List.nodup_append, h, hm]

/-- Every single monitor call keeps the open-position keys distinct. -/
theorem monitorStep_nodup (mon : PositionMonitor)
    (h : (assocKeys mon.positions).Nodup) (op : MonitorOp) :
    (assocKeys (monitorStep mon op).positions).Nodup := by
  cases op with
  | openPos m side sh e t =>
    exact nodup_assocSet mon.positions m
      { side := side, shares := sh, entry_price := e,
        current_price := e, entry_time := t } h
  | updatePrice m p =>
    simp only [monitorStep, PositionMonitor.update_position_price]
    split
    · simpa using h
    · split
      · simpa using nodup_assocSet mon.positions m _ h
      · simpa using nodup_assocSet mon.positions m _ h
  | closePos m p r t =>
    simp only [monitorStep, PositionMonitor.close_position]
    split
    · simpa using h
    · split
      · simpa using (assocKeys_assocErase_sublist mon.positions m).nodup h
      · simpa using (assocKeys_assocErase_sublist mon.positions m).nodup h

/-- At every reachable monitor state the open-position keys are distinct. -/
theorem monitorRun_nodup (ops : List MonitorOp) :
    (assocKeys (monitorRun ops).positions).Nodup := by
  suffices h : ∀ mon : PositionMonitor, (assocKeys mon.positions).Nodup →
      (assocKeys (ops.foldl monitorStep mon).positions).Nodup by
    exact h PositionMonitor.init (by simp [PositionMonitor.init, assocKeys])
  induction ops with
  | nil => intro mon hmon; simpa using hmon
  | cons op rest ih =>
    intro mon hmon
    exact ih (monitorStep mon op) (monitorStep_nodup mon hmon op)

/-- C9: every reachable `PositionMonitor` state holds at most one open
position per market (distinct keys), and `open_position` on a market that is
already open replaces the stored record in place: the key count is
unchanged, the new record is stored, and the closed-position history does
not receive the discarded position. -/
theorem C9_overwrite (ops : List MonitorOp) (mon : PositionMonitor)
    (m side : String) (sh e : ℚ) (t : ℕ) (old : MPosition) :
    (assocKeys (monitorRun ops).positions).Nodup ∧
    (assocLookup mon.positions m = some old →
      assocLookup (mon.open_position m side sh e t).positions m =
        some { side := side, shares := sh, entry_price := e,
               current_price := e, entry_time := t } ∧
      (mon.open_position m side sh e t).closed_positions =
        mon.closed_positions ∧
      (mon.open_position m side sh e t).positions.length =
        mon.positions.length) := by
  refine ⟨monitorRun_nodup ops, fun h => ⟨?_, rfl, ?_⟩⟩
  · exact assocLookup_assocSet_self mon.positions m _
  · exact length_assocSet_of_some mon.positions m old _ h

/-- Witness for C9: re-opening the one open market. -/
theorem C9_overwrite_witness :
    (assocKeys (monitorRun [.openPos "a" "yes" 1 (1/2) 0,
        .openPos "a" "no" 2 (1/4) 1]).positions).Nodup ∧
    (assocLookup ((PositionMonitor.init.open_position "a" "yes" 1 (1/2) 0).open_position
        "a" "no" 2 (1/4) 1).positions "a" =
      some { side := "no", shares := 2, entry_price := 1/4,
             current_price := 1/4, entry_time := 1 } ∧
      ((PositionMonitor.init.open_position "a" "yes" 1 (1/2) 0).open_position
        "a" "no" 2 (1/4) 1).closed_positions =
        (PositionMonitor.init.open_position "a" "yes" 1 (1/2) 0).closed_positions ∧
      ((PositionMonitor.init.open_position "a" "yes" 1 (1/2) 0).open_position
        "a" "no" 2 (1/4) 1).positions.length =
        (PositionMonitor.init.open_position "a" "yes" 1 (1/2) 0).positions.length) :=
  ⟨(C9_overwrite [.openPos "a" "yes" 1 (1/2) 0, .openPos "a" "no" 2 (1/4) 1]
      (PositionMonitor.init.open_position "a" "yes" 1 (1/2) 0)
      "a" "no" 2 (1/4) 1
      { side := "yes", shares := 1, entry_price := 1/2,
        current_price := 1/2, entry_time := 0 }).1,
   (C9_overwrite [.openPos "a" "yes" 1 (1/2) 0, .openPos "a" "no" 2 (1/4) 1]
      (PositionMonitor.init.open_position "a" "yes" 1 (1/2) 0)
      "a" "no" 2 (1/4) 1
      { side := "yes", shares := 1, entry_price := 1/2,
        current_price := 1/2, entry_time := 0 }).2
      (by simp [PositionMonitor.open_position, PositionMonitor.init,
        assocSet, assocLookup])⟩

/-- C5 as frozen is false: closing an open position with zero shares and a
positive entry price raises `ZeroDivisionError` in the percentage division
instead of returning the realized P&L — the position has already been
popped and nothing reaches the closed-position history. -/
theorem C5_counterexample :
    ((PositionMonitor.init.open_position "z" "yes" 0 (1/2) 0).close_position
        "z" (3/5) "Market closed" 1).2 =
      .error "ZeroDivisionError: float division by zero" ∧
    ((PositionMonitor.init.open_position "z" "yes" 0 (1/2) 0).close_position
        "z" (3/5) "Market closed" 1).1.closed_positions = [] := by
  constructor <;>
    norm_num [PositionMonitor.close_position, PositionMonitor.open_position,
      PositionMonitor.init, assocLookup, assocSet]

/-- C5 amended: for every open position except zero shares with positive
entry price (where the percentage division raises `ZeroDivisionError`),
`close_position` realizes `(exit - entry) * shares` on side `yes` and
`(entry - exit) * shares` otherwise, `update_position_price` computes
unrealized P&L by the same signed formula at the current price, and in
particular entry `0.40`, exit `0.60`, shares `10` realizes `+2` on `yes`
and `-2` on `no`. -/
theorem C5_pnl_sign (mon : PositionMonitor) (m : String) (pos : MPosition)
    (exit_price current_price : ℚ) (reason : String) (t : ℕ)
    (h : assocLookup mon.positions m = some pos)
    (hok : ¬(pos.entry_price > 0 ∧ pos.shares = 0)) :
    ((mon.close_position m exit_price reason t).2.map
        (Option.map MClosed.realized_pnl) =
      .ok (some (if pos.side = "yes" then (exit_price - pos.entry_price) * pos.shares
        else (pos.entry_price - exit_price) * pos.shares))) ∧
    ((mon.update_position_price m current_price).2.map
        (Option.map PriceView.unrealized_pnl) =
      .ok (some (if pos.side = "yes" then (current_price - pos.entry_price) * pos.shares
        else (pos.entry_price - current_price) * pos.shares))) ∧
    ((PositionMonitor.init.open_position "mkt" "yes" 10 (2/5) 0).close_position
      "mkt" (3/5) "Market closed" 1).2.map (Option.map MClosed.realized_pnl) =
      .ok (some 2) ∧
    ((PositionMonitor.init.open_position "mkt" "no" 10 (2/5) 0).close_position
      "mkt" (3/5) "Market closed" 1).2.map (Option.map MClosed.realized_pnl) =
      .ok (some (-2)) := by
  have hc : ¬(0 < pos.entry_price ∧ (pos.entry_price = 0 ∨ pos.shares = 0)) := by
    rintro ⟨hpos, h0 | h0⟩
    · exact absurd h0 (ne_of_gt hpos)
    · exact hok ⟨hpos, h0⟩
  have hne : ("no" : String) ≠ "yes" := by decide
  refine ⟨?_, ?_, ?_, ?_⟩
  · simp [PositionMonitor.close_position, h, hc, Except.map]
  · simp [PositionMonitor.update_position_price, h, hc, Except.map]
  · norm_num [PositionMonitor.close_position, PositionMonitor.open_position,
      PositionMonitor.init, assocLookup, assocSet, Except.map]
  · norm_num [PositionMonitor.close_position, PositionMonitor.open_position,
      PositionMonitor.init, assocLookup, assocSet, Except.map, hne]

/-- Witness for C5 on a concrete open position with nonzero shares. -/
theorem C5_pnl_sign_witness :
    (((PositionMonitor.init.open_position "w" "no" 4 (1/4) 0).close_position
        "w" (3/4) "Market closed" 1).2.map (Option.map MClosed.realized_pnl) =
      .ok (some (if ("no" : String) = "yes" then (3/4 - 1/4) * (4 : ℚ)
        else (1/4 - 3/4) * 4))) ∧
    (((PositionMonitor.init.open_position "w" "no" 4 (1/4) 0).update_position_price
        "w" (1/2)).2.map (Option.map PriceView.unrealized_pnl) =
      .ok (some (if ("no" : String) = "yes" then (1/2 - 1/4) * (4 : ℚ)
        else (1/4 - 1/2) * 4))) :=
  ⟨(C5_pnl_sign (PositionMonitor.init.open_position "w" "no" 4 (1/4) 0) "w"
      { side := "no", shares := 4, entry_price := 1/4,
        current_price := 1/4, entry_time := 0 }
      (3/4) (1/2) "Market closed" 1
      (by simp [PositionMonitor.open_position, PositionMonitor.init,
        assocSet, assocLookup])
      (by norm_num)).1,
   (C5_pnl_sign (PositionMonitor.init.open_position "w" "no" 4 (1/4) 0) "w"
      { side := "no", shares := 4, entry_price := 1/4,
        current_price := 1/4, entry_time := 0 }
      (3/4) (1/2) "Market closed" 1
      (by simp [PositionMonitor.open_position, PositionMonitor.init,
        assocSet, assocLookup])
      (by norm_num)).2.1⟩

/-! ## `TradeMetrics` (`src/monitoring.py`) -/

/-- One entry of the append-only trade log (`record_trade`); the timestamp
is embedded as an abstract tick. -/
structure TradeRec where
  timestamp : ℕ
  market_id : String
  side : String
  amount_usd : ℚ
  price : ℚ
  is_dry_run : Bool
deriving DecidableEq, Repr

/-- State of `TradeMetrics`. -/
structure TradeMetrics where
  trades : List TradeRec
  loss_limit_usd : ℚ
  loss_streak_alert : ℕ
  daily_loss_usd : ℚ
  loss_streak : ℕ
deriving DecidableEq, Repr

/-- `TradeMetrics.__init__` with the source's default thresholds. -/
def TradeMetrics.init : TradeMetrics :=
  { trades := [], loss_limit_usd := 50, loss_streak_alert := 3,
    daily_loss_usd := 0, loss_streak := 0 }

/-- `TradeMetrics.record_trade`: append one entry to the log. -/
def TradeMetrics.record_trade (tm : TradeMetrics) (now : ℕ)
    (market_id side : String) (amount_usd price : ℚ) (is_dry : Bool) :
    TradeMetrics :=
  { tm with trades := tm.trades ++
      [{ timestamp := now, market_id := market_id, side := side,
         amount_usd := amount_usd, price := price, is_dry_run := is_dry }] }

/-- `TradeMetrics.record_pnl`: a strictly negative P&L grows the daily-loss
accumulator by its magnitude and the streak by one; any other P&L resets
the streak to zero.  The `market_id` argument is unused by the source
body, so it is dropped here; the two alert conditions are logs only and do
not change state. -/
def TradeMetrics.record_pnl (tm : TradeMetrics) (pnl_usd : ℚ) : TradeMetrics :=
  if pnl_usd < 0 then
    { tm with daily_loss_usd := tm.daily_loss_usd + |pnl_usd|,
              loss_streak := tm.loss_streak + 1 }
  else
    { tm with loss_streak := 0 }

/-- The streak value observed after each `record_pnl` call of a P&L
sequence. -/
def streakTrace (tm : TradeMetrics) : List ℚ → List ℕ
  | [] => []
  | p :: rest =>
    let tm2 := tm.record_pnl p
    tm2.loss_streak :: streakTrace tm2 rest

/-- `TradeMetrics.get_statistics`: a one-key `{"trades": 0}` dict for an
empty log, otherwise the five-key statistics dict.  The two trade counters
are numbers, so the dict is embedded with `ℚ` values. -/
def TradeMetrics.get_statistics (tm : TradeMetrics) : List (String × ℚ) :=
  match tm.trades with
  | [] => [("trades", 0)]
  | _ =>
    [("total_trades", (tm.trades.length : ℚ)),
     ("dry_run_trades", ((tm.trades.filter (fun t => t.is_dry_run)).length : ℚ)),
     ("live_trades", ((tm.trades.filter (fun t => ¬ t.is_dry_run)).length : ℚ)),
     ("daily_loss_usd", tm.daily_loss_usd),
     ("current_loss_streak", (tm.loss_streak : ℚ))]

/-- C8: `record_pnl` increments the streak by one on each strictly negative
P&L and resets it to zero on any non-negative P&L (zero included), and the
sequence `[-5, -5, -5, +1, -5]` yields the streak values `[1, 2, 3, 0, 1]`
from the initial state. -/
theorem C8_loss_streak (tm : TradeMetrics) (pnl : ℚ) :
    (pnl < 0 → (tm.record_pnl pnl).loss_streak = tm.loss_streak + 1) ∧
    (0 ≤ pnl → (tm.record_pnl pnl).loss_streak = 0) ∧
    streakTrace TradeMetrics.init [-5, -5, -5, 1, -5] = [1, 2, 3, 0, 1] := by
  refine ⟨fun h => ?_, fun h => ?_, ?_⟩
  · simp [TradeMetrics.record_pnl, h]
  · simp [TradeMetrics.record_pnl, not_lt.mpr h]
  · norm_num [streakTrace, TradeMetrics.record_pnl, TradeMetrics.init]

/-- Witness for C8 at concrete P&L values. -/
theorem C8_loss_streak_witness :
    (TradeMetrics.init.record_pnl (-5)).loss_streak =
      TradeMetrics.init.loss_streak + 1 ∧
    (TradeMetrics.init.record_pnl 0).loss_streak = 0 :=
  ⟨(C8_loss_streak TradeMetrics.init (-5)).1 (by norm_num),
   (C8_loss_streak TradeMetrics.init 0).2.1 le_rfl⟩

/-- C10: with an empty trade log `get_statistics` returns exactly the
one-key dict `{"trades": 0}`, and with a non-empty log it returns exactly
the five statistics keys, with no key named `"trades"`. -/
theorem C10_statistics_keys (tm : TradeMetrics) :
    (tm.trades = [] → tm.get_statistics = [("trades", 0)]) ∧
    (tm.trades ≠ [] →
      assocKeys tm.get_statistics =
        ["total_trades", "dry_run_trades", "live_trades",
         "daily_loss_usd", "current_loss_streak"] ∧
      "trades" ∉ assocKeys tm.get_statistics) := by
  constructor
  · intro h
    simp [TradeMetrics.get_statistics, h]
  · intro h
    match hl : tm.trades with
    | [] => exact absurd hl h
    | t :: rest =>
      constructor
      · simp [TradeMetrics.get_statistics, hl, assocKeys]
      · simp [TradeMetrics.get_statistics, hl, assocKeys]

/-- Witness for C10 on an empty and on a one-trade log. -/
theorem C10_statistics_keys_witness :
    TradeMetrics.init.get_statistics = [("trades", 0)] ∧
    (assocKeys (TradeMetrics.init.record_trade 0 "m" "yes" 1 (1/2) true).get_statistics =
      ["total_trades", "dry_run_trades", "live_trades",
       "daily_loss_usd", "current_loss_streak"] ∧
    "trades" ∉ assocKeys
      (TradeMetrics.init.record_trade 0 "m" "yes" 1 (1/2) true).get_statistics) :=
  ⟨(C10_statistics_keys TradeMetrics.init).1 rfl,
   (C10_statistics_keys (TradeMetrics.init.record_trade 0 "m" "yes" 1 (1/2) true)).2
     (by simp [TradeMetrics.record_trade, TradeMetrics.init])⟩

/-! ## `execute_market_buy` (`src/execution.py`) with the paper portfolio
(`src/portfolio.py`)

The observable behaviour of one call is embedded as
`Except String (ExecOutcome × Option (List PaperPos))`: an uncaught Python
exception is `.error`, otherwise the boolean return value and the facts the
call logs (the partial-fill warning and the confirmed amount of the
`SUCCESS` trade log) together with the resulting paper portfolio. -/

/-- One entry of `PaperPortfolio.positions`. -/
structure PaperPos where
  market : String
  side : String
  shares : ℚ
  avg_price : ℚ
  current_value : ℚ
  pnl : ℚ
deriving DecidableEq, Repr

/-- The market dict as `add_position` reads it: only the optional
`"question"` field is consulted. -/
structure MarketInfo where
  question : Option String
deriving DecidableEq, Repr

/-- `PaperPortfolio.add_position`: `shares = amount / price` raises
`ZeroDivisionError` at price zero, otherwise one entry is appended. -/
def PaperPortfolio.add_position (ps : List PaperPos) (market : MarketInfo)
    (side : String) (amount price : ℚ) : Except String (List PaperPos) :=
  if price = 0 then .error "ZeroDivisionError: float division by zero"
  else .ok (ps ++
    [{ market := market.question.getD "Unknown", side := side,
       shares := amount / price, avg_price := price,
       current_value := amount, pnl := 0 }])

/-- The exchange response dict `post_order` yields, as the executor reads
it: both fields are read with `.get` and may be absent. -/
structure OrderResponse where
  tx_hash : Option String
  filled_amount : Option ℚ
deriving DecidableEq, Repr

/-- Observable outcome of one `execute_market_buy` call: the returned
boolean, whether the `PARTIAL FILL` warning was logged, the amount named in
the `SUCCESS` trade log, and the number of submission attempts made. -/
structure ExecOutcome where
  success : Bool
  fill_below_95 : Bool
  confirmed_amount : Option ℚ
  attempts : ℕ
deriving DecidableEq, Repr

/-- The tenacity-driven `_post_order` loop: try the current attempt; while
retries remain, an exception moves to the next attempt.  The second
component is the number of the attempt that produced the result. -/
def retryAux (submit : ℕ → Except String OrderResponse) (attempt : ℕ) :
    ℕ → Except String OrderResponse × ℕ
  | 0 => (submit attempt, attempt)
  | retriesLeft + 1 =>
    match submit attempt with
    | .ok r => (.ok r, attempt)
    | .error _ => retryAux submit (attempt + 1) retriesLeft

/-- `stop_after_attempt(3)`: attempt 1 with two retries in reserve. -/
def post_order_with_retry (submit : ℕ → Except String OrderResponse) :
    Except String OrderResponse × ℕ :=
  retryAux submit 1 2

/-- `execute_market_buy`.  In dry-run mode the opening `log_trade` f-string
formats the reference price with `:.4f`, which raises `TypeError` on `None`;
otherwise the paper record is attempted (its failure caught and logged) and
`True` is returned.  In live mode: wallet floor, positivity check, then the
retried submission; a response read as fully or nearly filled or not is
always a success, an exhausted retry loop is a `False` return.  `submit k`
is the outcome of `client.create_market_buy` plus `client.post_order` on
attempt `k`. -/
def execute_market_buy (dry_run : Bool) (pp : Option (List PaperPos))
    (wallet_balance_usd : ℚ) (token_id side_name : String) (amount_usd : ℚ)
    (market : Option MarketInfo) (price : Option ℚ)
    (submit : ℕ → Except String OrderResponse) :
    Except String (ExecOutcome × Option (List PaperPos)) :=
  if dry_run then
    match price with
    | none => .error "TypeError: unsupported format string passed to NoneType"
    | some p =>
      let pp2 : Option (List PaperPos) :=
        match pp, market with
        | some ps, some mk =>
          match PaperPortfolio.add_position ps mk side_name amount_usd p with
          | .ok ps2 => some ps2
          | .error _ => some ps
        | some ps, none => some ps
        | none, _ => none
      .ok ({ success := true, fill_below_95 := false,
             confirmed_amount := none, attempts := 0 }, pp2)
  else
    if wallet_balance_usd < WALLET_MIN_BALANCE_USD then
      .ok ({ success := false, fill_below_95 := false,
             confirmed_amount := none, attempts := 0 }, pp)
    else if amount_usd ≤ 0 then
      .ok ({ success := false, fill_below_95 := false,
             confirmed_amount := none, attempts := 0 }, pp)
    else
      match post_order_with_retry submit with
      | (.ok resp, k) =>
        let filled := resp.filled_amount.getD amount_usd
        .ok ({ success := true,
               fill_below_95 := decide (filled < amount_usd * (95 / 100)),
               confirmed_amount := some filled, attempts := k }, pp)
      | (.error _, k) =>
        .ok ({ success := false, fill_below_95 := false,
               confirmed_amount := none, attempts := k }, pp)

/-- Number of paper-portfolio entries (zero when no portfolio exists). -/
def paperCount : Option (List PaperPos) → ℕ
  | none => 0
  | some ps => ps.length

/-- C2 as frozen is false: in dry-run mode with a `None` market dict the
call still returns success but records no paper-portfolio entry — the
recording is guarded by `market is not None` — so "exactly one new entry
per call for every input" fails. -/
theorem C2_counterexample :
    execute_market_buy true (some []) 0 "tok" "yes" 1 none (some (4/5))
      (fun _ => .error "unused") =
      .ok ({ success := true, fill_below_95 := false,
             confirmed_amount := none, attempts := 0 }, some []) :=
  rfl

/-- C2 amended: in dry-run mode with a non-`None` price the call returns
success, and it records exactly one new paper entry precisely when the
paper portfolio exists, the market dict is not `None` and the price is
nonzero (otherwise the portfolio is unchanged and success is still
returned); with a `None` price the opening log f-string raises before any
success is returned. -/
theorem C2_dry_run_success (pp : Option (List PaperPos)) (bal : ℚ)
    (tok side : String) (amount : ℚ) (market : Option MarketInfo) (p : ℚ)
    (submit : ℕ → Except String OrderResponse) :
    (∃ pp2, execute_market_buy true pp bal tok side amount market (some p) submit =
        .ok ({ success := true, fill_below_95 := false,
               confirmed_amount := none, attempts := 0 }, pp2) ∧
      paperCount pp2 = paperCount pp +
        (if pp.isSome = true ∧ market.isSome = true ∧ p ≠ 0 then 1 else 0)) ∧
    ∃ e, execute_market_buy true pp bal tok side amount market none submit =
      .error e := by
  refine ⟨?_, _, rfl⟩
  match pp, market with
  | none, mk =>
    refine ⟨none, ?_, by simp [paperCount]⟩
    cases mk <;> rfl
  | some ps, none =>
    exact ⟨some ps, rfl, by simp [paperCount]⟩
  | some ps, some mk =>
    by_cases hp : p = 0
    · refine ⟨some ps, ?_, ?_⟩
      · simp [execute_market_buy, PaperPortfolio.add_position, hp]
      · simp [paperCount, hp]
    · refine ⟨some (ps ++
        [{ market := mk.question.getD "Unknown", side := side,
           shares := amount / p, avg_price := p,
           current_value := amount, pnl := 0 }]), ?_, ?_⟩
      · simp [execute_market_buy, PaperPortfolio.add_position, hp]
      · simp [paperCount, hp]

/-- C3: in live mode, a response whose filled amount is below 95% of the
requested amount still yields overall success, with the partial-fill
warning logged and the confirmed amount equal to the actual filled amount,
which differs from the requested amount. -/
theorem C3_partial_fill (pp : Option (List PaperPos)) (bal : ℚ)
    (tok side : String) (amount : ℚ) (market : Option MarketInfo)
    (price : Option ℚ) (submit : ℕ → Except String OrderResponse)
    (resp : OrderResponse) (filled : ℚ)
    (hbal : ¬ bal < WALLET_MIN_BALANCE_USD) (hamt : ¬ amount ≤ 0)
    (hsub : submit 1 = .ok resp) (hfill : resp.filled_amount = some filled)
    (hbelow95 : filled < amount * (95 / 100)) :
    execute_market_buy false pp bal tok side amount market price submit =
      .ok ({ success := true, fill_below_95 := true,
             confirmed_amount := some filled, attempts := 1 }, pp) ∧
    filled ≠ amount := by
  have hlt : filled < amount := by
    have h1 : (0 : ℚ) < amount := not_le.mp hamt
    have h2 : amount * (95 / 100) < amount := by linarith
    linarith
  constructor
  · simp [execute_market_buy, hbal, hamt, post_order_with_retry, retryAux,
      hsub, hfill, hbelow95]
  · exact ne_of_lt hlt

/-- Witness for C3: requesting 10 with 5 filled. -/
theorem C3_partial_fill_witness :
    execute_market_buy false none 10 "t" "yes" 10 none none
      (fun _ => .ok { tx_hash := some "tx", filled_amount := some 5 }) =
      .ok ({ success := true, fill_below_95 := true,
             confirmed_amount := some 5, attempts := 1 }, none) ∧
    (5 : ℚ) ≠ 10 :=
  C3_partial_fill none 10 "t" "yes" 10 none none
    (fun _ => .ok { tx_hash := some "tx", filled_amount := some 5 })
    { tx_hash := some "tx", filled_amount := some 5 } 5
    (by norm_num [WALLET_MIN_BALANCE_USD]) (by norm_num) rfl rfl (by norm_num)

/-- C4: in live mode a submission that raises on the first two attempts and
succeeds on the third yields overall success with exactly three attempts
made; one that raises on all three attempts yields an overall failure
result (an ordinary return, not an exception) after exactly three
attempts, with the paper portfolio untouched in both cases. -/
theorem C4_retry_attempts (pp : Option (List PaperPos)) (bal : ℚ)
    (tok side : String) (amount : ℚ) (market : Option MarketInfo)
    (price : Option ℚ) (submitA submitB : ℕ → Except String OrderResponse)
    (e1 e2 : String) (resp : OrderResponse)
    (hbal : ¬ bal < WALLET_MIN_BALANCE_USD) (hamt : ¬ amount ≤ 0)
    (hA1 : submitA 1 = .error e1) (hA2 : submitA 2 = .error e2)
    (hA3 : submitA 3 = .ok resp)
    (hB1 : ∃ f1, submitB 1 = .error f1) (hB2 : ∃ f2, submitB 2 = .error f2)
    (hB3 : ∃ f3, submitB 3 = .error f3) :
    (∃ out : ExecOutcome,
      execute_market_buy false pp bal tok side amount market price submitA =
        .ok (out, pp) ∧ out.success = true ∧ out.attempts = 3) ∧
    (∃ out : ExecOutcome,
      execute_market_buy false pp bal tok side amount market price submitB =
        .ok (out, pp) ∧ out.success = false ∧ out.attempts = 3) := by
  obtain ⟨f1, hf1⟩ := hB1
  obtain ⟨f2, hf2⟩ := hB2
  obtain ⟨f3, hf3⟩ := hB3
  constructor
  · refine ⟨⟨true, decide (resp.filled_amount.getD amount < amount * (95 / 100)),
      some (resp.filled_amount.getD amount), 3⟩, ?_, rfl, rfl⟩
    simp [execute_market_buy, hbal, hamt, post_order_with_retry, retryAux,
      hA1, hA2, hA3]
  · refine ⟨⟨false, false, none, 3⟩, ?_, rfl, rfl⟩
    simp [execute_market_buy, hbal, hamt, post_order_with_retry, retryAux,
      hf1, hf2, hf3]

/-- Witness for C4: a submission succeeding only on its third attempt next
to one failing on all three. -/
theorem C4_retry_attempts_witness :
    (∃ out : ExecOutcome,
      execute_market_buy false none 10 "t" "yes" 10 none none
        (fun k => if k = 3
          then .ok { tx_hash := some "tx", filled_amount := some 10 }
          else .error "boom") =
        .ok (out, none) ∧ out.success = true ∧ out.attempts = 3) ∧
    (∃ out : ExecOutcome,
      execute_market_buy false none 10 "t" "yes" 10 none none
        (fun _ => .error "boom") =
        .ok (out, none) ∧ out.success = false ∧ out.attempts = 3) :=
  C4_retry_attempts none 10 "t" "yes" 10 none none
    (fun k => if k = 3
      then .ok { tx_hash := some "tx", filled_amount := some 10 }
      else .error "boom")
    (fun _ => .error "boom") "boom" "boom"
    { tx_hash := some "tx", filled_amount := some 10 }
    (by norm_num [WALLET_MIN_BALANCE_USD]) (by norm_num)
    rfl rfl rfl ⟨"boom", rfl⟩ ⟨"boom", rfl⟩ ⟨"boom", rfl⟩

end PolymarketBot
